import Mathlib

/-!
Verification development for the WaterFFT ocean-surface simulation.

Shallow embedding conventions:
- float values are modelled as exact rationals;
- the C math primitives sqrt, cos and sin are collaborator parameters,
  gathered in a FloatOps record, so theorems state exactly which of their
  values they rely on;
- the FFTW transform is an external collaborator and is modelled as an
  opaque-to-the-theorem function parameter of type (Nat to Complex) to
  (Nat to Complex);
- the Gaussian random source is modelled by passing the pair of variates
  it produced as explicit arguments;
- vertex buffers are total functions from vertex index to vertex record.
-/

namespace Water

-- MATH HELPERS (WaterFFT.cpp, lines 26 to 41) --------------------------------

/-- Lerp from WaterFFT.cpp. -/
def Lerp (a b t : ℚ) : ℚ := a + (b - a) * t

/-- QuadLerp from WaterFFT.cpp. -/
def QuadLerp (a b c d tx ty : ℚ) : ℚ :=
  let ab := Lerp a b tx
  let cd := Lerp c d tx
  Lerp ab cd ty

-- COMPLEX (Complex.h / Complex.cpp) ------------------------------------------

/-- Complex from Complex.h: a two-component numeric type over the float model. -/
structure Complex where
  m_Real : ℚ
  m_Imaginary : ℚ
deriving DecidableEq

/-- Complex::operator+ from Complex.cpp. -/
def Complex.add (a b : Complex) : Complex :=
  ⟨a.m_Real + b.m_Real, a.m_Imaginary + b.m_Imaginary⟩

/-- Complex::operator- from Complex.cpp. -/
def Complex.sub (a b : Complex) : Complex :=
  ⟨a.m_Real - b.m_Real, a.m_Imaginary - b.m_Imaginary⟩

/-- Complex::operator* (complex right-hand side) from Complex.cpp. -/
def Complex.mul (a b : Complex) : Complex :=
  ⟨a.m_Real * b.m_Real - a.m_Imaginary * b.m_Imaginary,
   a.m_Real * b.m_Imaginary + a.m_Imaginary * b.m_Real⟩

/-- Complex::operator* (float right-hand side) from Complex.cpp. -/
def Complex.mulF (a : Complex) (rhs : ℚ) : Complex :=
  ⟨a.m_Real * rhs, a.m_Imaginary * rhs⟩

/-- Complex::Conjugate from Complex.cpp. -/
def Complex.Conjugate (a : Complex) : Complex :=
  ⟨a.m_Real, -a.m_Imaginary⟩

-- FLOAT-MATH COLLABORATORS ---------------------------------------------------

/-- FloatOps bundles the C math-library primitives used by WaterFFT.cpp
(sqrt, cos, sin) as parameters of the model. Theorems state the point values
of these functions they depend on as hypotheses. -/
structure FloatOps where
  sqrtF : ℚ → ℚ
  cosF : ℚ → ℚ
  sinF : ℚ → ℚ
  expF : ℚ → ℚ

-- CONSTANTS (WaterFFT.cpp, lines 16 to 22) -----------------------------------

/-- EPSILON, the macro 1.0e-4f. -/
def EPSILON : ℚ := 1 / 10000

/-- TAU, the macro 6.28318530718f. -/
def TAU : ℚ := 628318530718 / 100000000000

/-- MIN_DX_DZ, the macro 0.02f. -/
def MIN_DX_DZ : ℚ := 1 / 50

-- CONSTRUCTOR ERROR CHECKS (WaterFFT.cpp, lines 88 to 125) -------------------

/-- WaterFFTError::Type from WaterFFT.h. -/
inductive ErrorType where
  | INVALID_GRID_DIM
  | SMALL_DX_DZ
deriving DecidableEq

/-- gridDimCheckFails models the power-of-two loop of the WaterFFT constructor
(lines 97 to 106): gd_check is halved while it exceeds 2, and the error is
raised the first time an odd value is seen. Returns true when the loop throws
INVALID_GRID_DIM. -/
def gridDimCheckFails (gd : ℕ) : Bool :=
  if h : 2 < gd then
    if gd % 2 ≠ 0 then true else gridDimCheckFails (gd / 2)
  else false
termination_by gd
decreasing_by exact Nat.div_lt_self (by omega) (by omega)

/-- constructError models the two error checks of the WaterFFT constructor in
their source order. The second check (line 110) divides meter_dimension by
m_XStride, a member that is only assigned later (line 120): at the point of
the check it still holds an indeterminate value, modelled here by the
explicit parameter junk_XStride. Returns the error thrown, if any. -/
def constructError (grid_dimension : ℕ) (meter_dimension : ℚ)
    (junk_XStride : ℕ) : Option ErrorType :=
  if gridDimCheckFails grid_dimension then some ErrorType.INVALID_GRID_DIM
  else if meter_dimension / (junk_XStride : ℚ) < MIN_DX_DZ then
    some ErrorType.SMALL_DX_DZ
  else none

-- SPECTRUM AND TIME EVOLUTION (WaterFFT.cpp, lines 532 to 597) ---------------

/-- WaterFFT::DispersionRelation (lines 551 to 556). The float floor is
modelled by the integer floor of the exact rational value. -/
def DispersionRelation (ops : FloatOps) (m_Gravity : ℚ) (k : ℚ × ℚ) : ℚ :=
  let w_0 : ℚ := TAU / 200
  let k_magnitude := ops.sqrtF (k.1 * k.1 + k.2 * k.2)
  ((⌊ops.sqrtF (m_Gravity * k_magnitude) / w_0⌋ : ℤ) : ℚ) * w_0

/-- WaterFFT::HTilde (lines 532 to 549), exactly as the source computes it:
e_1 = (cos wt, sin wt) and e_2 = (-cos wt, -sin wt). -/
def HTilde (ops : FloatOps) (m_Gravity : ℚ) (htilde0 htilde0_conjugate : Complex)
    (k : ℚ × ℚ) (time : ℚ) : Complex :=
  let dispersion := DispersionRelation ops m_Gravity k
  let omega_t := dispersion * time
  let cos_omega_t := ops.cosF omega_t
  let sin_omega_t := ops.sinF omega_t
  let e_1 : Complex := ⟨cos_omega_t, sin_omega_t⟩
  let e_2 : Complex := ⟨-cos_omega_t, -sin_omega_t⟩
  let term1 := htilde0.mul e_1
  let term2 := htilde0_conjugate.mul e_2
  term1.add term2

/-- WaterFFT::PhillipsSpectrum (lines 570 to 597). -/
def PhillipsSpectrum (ops : FloatOps) (m_Amplitude m_Gravity : ℚ)
    (m_Wind : ℚ × ℚ) (k : ℚ × ℚ) : ℚ :=
  let k_magnitude := ops.sqrtF (k.1 * k.1 + k.2 * k.2)
  let wind_speed := ops.sqrtF (m_Wind.1 * m_Wind.1 + m_Wind.2 * m_Wind.2)
  let wind_normal := (m_Wind.1 / wind_speed, m_Wind.2 / wind_speed)
  if k_magnitude < EPSILON then 0 else
  let k_mag_pow_2 := k_magnitude * k_magnitude
  let k_mag_pow_4 := k_mag_pow_2 * k_mag_pow_2
  let largest_wave := wind_speed * wind_speed / m_Gravity
  let largest_wave_pow_2 := largest_wave * largest_wave
  let k_normal := (k.1 / k_magnitude, k.2 / k_magnitude)
  let k_dot_winddir := k_normal.1 * wind_normal.1 + k_normal.2 * wind_normal.2
  let k_dot_winddir_pow_2 := k_dot_winddir * k_dot_winddir
  let exponent := -1 / (k_mag_pow_2 * largest_wave_pow_2)
  let damping : ℚ := 1 / 1000
  let l2 := largest_wave_pow_2 * damping * damping
  let factor2 := ops.expF exponent / k_mag_pow_4
  let additional_factor := ops.expF (-k_mag_pow_2 * l2)
  m_Amplitude * factor2 * k_dot_winddir_pow_2 * additional_factor

/-- WaterFFT::HTilde0 (lines 558 to 568). The Gaussian generator
NormalComplexRandom is a collaborator; q0 and q1 are the two variates it
returned for this call. -/
def HTilde0 (ops : FloatOps) (m_Amplitude m_Gravity : ℚ) (m_Wind : ℚ × ℚ)
    (q0 q1 : ℚ) (k : ℚ × ℚ) : Complex :=
  let multiplicand := ops.sqrtF (PhillipsSpectrum ops m_Amplitude m_Gravity m_Wind k / 2)
  let multiplier : Complex := ⟨q0, q1⟩
  multiplier.mulF multiplicand

-- MESH DATA MODEL (WaterFFT.h) -----------------------------------------------

/-- WaterFFT::Vertex from WaterFFT.h: position, normal and the two padding
w components. -/
structure Vertex where
  m_Px : ℚ
  m_Py : ℚ
  m_Pz : ℚ
  m_Pw : ℚ
  m_Nx : ℚ
  m_Ny : ℚ
  m_Nz : ℚ
  m_Nw : ℚ
deriving DecidableEq

/-- Buf models a vertex buffer (std::vector of Vertex) as a total function
from vertex index to vertex. -/
def Buf : Type := ℕ → Vertex

/-- setBuf models writing one vertex of a buffer in place. -/
def setBuf (b : Buf) (i : ℕ) (v : Vertex) : Buf :=
  fun j => if j = i then v else b j

/-- m_XStride of a WaterFFT built with the given grid_dimension
(line 120: grid_dimension + 1). -/
def m_XStride (gridDim : ℕ) : ℕ := gridDim + 1

/-- m_ZStride of a WaterFFT built with the given grid_dimension (line 121). -/
def m_ZStride (gridDim : ℕ) : ℕ := gridDim + 1

/-- m_NumVerts of a WaterFFT built with the given grid_dimension (line 122). -/
def m_NumVerts (gridDim : ℕ) : ℕ := m_XStride gridDim * m_ZStride gridDim

/-- WaterFFT::MeshPosition from WaterFFT.h. -/
structure MeshPosition where
  m_VertexIndex : ℕ
  m_Xt : ℚ
  m_Zt : ℚ
deriving DecidableEq

/-- wrapIndexFloat models the wrap of one index coordinate in
WaterFFT::LocationToMeshPosition (lines 507 to 521). The first reduction is
the if branch (the unsigned cast of the nonnegative quotient is its integer
floor); the while loop that repeatedly adds x_max_index until the value is
nonnegative is modelled by its closed form: it runs ceil(-x / max) times. -/
def wrapIndexFloat (x_index_float x_max_index : ℚ) : ℚ :=
  let reduced :=
    if x_max_index ≤ x_index_float then
      x_index_float - ((⌊x_index_float / x_max_index⌋.toNat : ℕ) : ℚ) * x_max_index
    else x_index_float
  if reduced < 0 then
    reduced + ((⌈-reduced / x_max_index⌉.toNat : ℕ) : ℚ) * x_max_index
  else reduced

/-- WaterFFT::LocationToMeshPosition (lines 500 to 529). The unsigned casts of
the wrapped nonnegative floats are modelled by integer floor followed by
toNat. -/
def LocationToMeshPosition (gridDim : ℕ) (location : ℚ × ℚ) : MeshPosition :=
  let x_index_float := location.1 + (m_XStride gridDim : ℚ) / 2
  let z_index_float := location.2 + (m_ZStride gridDim : ℚ) / 2
  let x_max_index : ℚ := ((m_XStride gridDim - 1 : ℕ) : ℚ)
  let z_max_index : ℚ := ((m_ZStride gridDim - 1 : ℕ) : ℚ)
  let xf := wrapIndexFloat x_index_float x_max_index
  let zf := wrapIndexFloat z_index_float z_max_index
  let x_index : ℕ := ⌊xf⌋.toNat
  let xt := xf - (x_index : ℚ)
  let z_index : ℕ := ⌊zf⌋.toNat
  let zt := zf - (z_index : ℚ)
  ⟨z_index * m_XStride gridDim + x_index, xt, zt⟩

/-- WaterFFT::GetLocationHeightFFT (lines 461 to 477), reading the current
read buffer. -/
def GetLocationHeightFFT (gridDim : ℕ) (readBuffer : Buf) (mp : MeshPosition) : ℚ :=
  let a := readBuffer mp.m_VertexIndex
  let b := readBuffer (mp.m_VertexIndex + 1)
  let c := readBuffer (mp.m_VertexIndex + m_XStride gridDim)
  let d := readBuffer (mp.m_VertexIndex + m_XStride gridDim + 1)
  let ha := a.m_Py
  let hb := b.m_Py
  let hc := c.m_Py
  let hd := d.m_Py
  let hab := ha + (hb - ha) * mp.m_Xt
  let hcd := hc + (hd - hc) * mp.m_Xt
  hab + (hcd - hab) * mp.m_Zt

/-- WaterFFT::HeightAtLocation (lines 210 to 214). -/
def HeightAtLocation (gridDim : ℕ) (readBuffer : Buf) (location : ℚ × ℚ) : ℚ :=
  GetLocationHeightFFT gridDim readBuffer (LocationToMeshPosition gridDim location)

-- INTENSITY MAP (WaterFFT.cpp, lines 45 to 84) -------------------------------

/-- WaterFFT::IntensityMap. m_Data models the stbi_load result: none when
decoding failed (stbi_load returned null); otherwise the single-channel
samples, indexed row major, with values in 0 to 255. When decoding fails the
width, height, m_MaxX and m_MaxY members keep whatever the constructor left
in them. -/
structure IntensityMap where
  m_Data : Option (ℕ → ℚ)
  m_Width : ℕ
  m_Height : ℕ
  m_MaxX : ℕ
  m_MaxY : ℕ

/-- WaterFFT::IntensityMap::GetIntensity (lines 59 to 84). Returns none when
m_Data is null, in which case the source dereferences a null pointer. -/
def GetIntensity (im : IntensityMap) (x z : ℚ) : Option ℚ :=
  let xi_f := x * (im.m_Width : ℚ)
  let yi_f := z * (im.m_Height : ℚ)
  let xi0 : ℕ := ⌊xi_f⌋.toNat
  let xi1 : ℕ := min (xi0 + 1) im.m_MaxX
  let yi0 : ℕ := ⌊yi_f⌋.toNat
  let yi1 : ℕ := min (yi0 + 1) im.m_MaxY
  let x_t := xi_f - (xi0 : ℚ)
  let y_t := yi_f - (yi0 : ℚ)
  let ai := yi0 * im.m_Width + xi0
  let bi := yi0 * im.m_Width + xi1
  let ci := yi1 * im.m_Width + xi0
  let di := yi1 * im.m_Width + xi1
  match im.m_Data with
  | none => none
  | some d =>
    some (QuadLerp (d ai / 255) (d bi / 255) (d ci / 255) (d di / 255) x_t y_t)

-- WATER STATE (WaterFFT.h members fixed at construction) ---------------------

/-- WaterFFT::VertexExtra from WaterFFT.h. -/
structure VertexExtra where
  m_Ox : ℚ
  m_Oy : ℚ
  m_Oz : ℚ
  m_HTilde0 : Complex
  m_HTilde0Conjugate : Complex

/-- WaterState gathers the WaterFFT members that the update and query paths
read: the fft grid dimension (m_fft_XStride = m_fft_ZStride), the physical
lengths, the scale factors, gravity, the immutable per-cell extras buffer and
the optional intensity map. -/
structure WaterState where
  gridDim : ℕ
  m_XLength : ℚ
  m_ZLength : ℚ
  m_HeightScale : ℚ
  m_DisplaceScale : ℚ
  m_Gravity : ℚ
  m_VertexExtrasBuffer : ℕ → VertexExtra
  m_IMap : Option IntensityMap

/-- WaterFFT::UseIntensityMap (lines 184 to 189): unconditionally replaces the
current map with a freshly constructed one, whether or not decoding
succeeded, and reports success. -/
def UseIntensityMap (st : WaterState) (im : IntensityMap) : WaterState :=
  { st with m_IMap := some im }

-- UPDATE PIPELINE (WaterFFT.cpp, lines 268 to 443) ---------------------------

/-- kVecAt computes the wavevector (kx, kz) of fft cell idx, as in the loop
heads of UpdateFFT (lines 271 to 279): z = idx / gridDim, x = idx mod
gridDim, m = z - gridDim/2, n = x - gridDim/2. -/
def kVecAt (st : WaterState) (idx : ℕ) : ℚ × ℚ :=
  let z := idx / st.gridDim
  let x := idx % st.gridDim
  let m := (z : ℚ) - (st.gridDim : ℚ) / 2
  let n := (x : ℚ) - (st.gridDim : ℚ) / 2
  ((TAU * n) / st.m_XLength, (TAU * m) / st.m_ZLength)

/-- hTildeAt is the evolved frequency-domain value of fft cell idx
(lines 280 to 286). -/
def hTildeAt (ops : FloatOps) (st : WaterState) (time : ℚ) (idx : ℕ) : Complex :=
  HTilde ops st.m_Gravity (st.m_VertexExtrasBuffer idx).m_HTilde0
    (st.m_VertexExtrasBuffer idx).m_HTilde0Conjugate (kVecAt st idx) time

/-- m_HTildeIn as filled by UpdateFFT (line 288). -/
def m_HTildeIn (ops : FloatOps) (st : WaterState) (time : ℚ) : ℕ → Complex :=
  fun idx => hTildeAt ops st time idx

/-- m_HTildeSlopeXIn as filled by UpdateFFT (line 289). -/
def m_HTildeSlopeXIn (ops : FloatOps) (st : WaterState) (time : ℚ) : ℕ → Complex :=
  fun idx => (hTildeAt ops st time idx).mul ⟨0, (kVecAt st idx).1⟩

/-- m_HTildeSlopeZIn as filled by UpdateFFT (line 290). -/
def m_HTildeSlopeZIn (ops : FloatOps) (st : WaterState) (time : ℚ) : ℕ → Complex :=
  fun idx => (hTildeAt ops st time idx).mul ⟨0, (kVecAt st idx).2⟩

/-- m_HTildeDisplaceXIn as filled by UpdateFFT (lines 291 to 302). -/
def m_HTildeDisplaceXIn (ops : FloatOps) (st : WaterState) (time : ℚ) : ℕ → Complex :=
  fun idx =>
    let k := kVecAt st idx
    let k_magnitude := ops.sqrtF (k.1 * k.1 + k.2 * k.2)
    if k_magnitude < EPSILON then ⟨0, 0⟩
    else (hTildeAt ops st time idx).mul ⟨0, -k.1 / k_magnitude⟩

/-- m_HTildeDisplaceZIn as filled by UpdateFFT (lines 291 to 302). -/
def m_HTildeDisplaceZIn (ops : FloatOps) (st : WaterState) (time : ℚ) : ℕ → Complex :=
  fun idx =>
    let k := kVecAt st idx
    let k_magnitude := ops.sqrtF (k.1 * k.1 + k.2 * k.2)
    if k_magnitude < EPSILON then ⟨0, 0⟩
    else (hTildeAt ops st time idx).mul ⟨0, -k.2 / k_magnitude⟩

/-- runningSign models the int sign variable of UpdateFFT after a given number
of executions of the statement sign *= -1, starting from its initial value 1
(line 317). -/
def runningSign : ℕ → ℚ
  | 0 => 1
  | f + 1 => -(runningSign f)

/-- signFlips counts the executions of sign *= -1 that precede the processing
of fft cell (z, x) in the synthesis loop (lines 318 to 372): one per already
processed cell (z * gridDim + x of them) plus the extra end-of-row execution
of each completed row (z of them). -/
def signFlips (gridDim z x : ℕ) : ℕ := z * gridDim + x + z

/-- signAt is the value of the sign variable when fft cell (z, x) is
processed. -/
def signAt (gridDim z x : ℕ) : ℚ := runningSign (signFlips gridDim z x)

/-- assembleVertex builds the new vertex written for fft cell idx
(lines 322 to 360): the five transform outputs are multiplied by the running
sign, the intensity-map factors are applied when a map is attached, and only
the position and normal fields of the old vertex are replaced. Returns none
when the attached intensity map dereferences null data. -/
def assembleVertex (st : WaterState)
    (hOut sxOut szOut dxOut dzOut : ℕ → Complex) (idx : ℕ) (old : Vertex) :
    Option Vertex :=
  let N := st.gridDim
  let z := idx / N
  let x := idx % N
  let sign := signAt N z x
  let ho := (hOut idx).mulF sign
  let sxo := (sxOut idx).mulF sign
  let szo := (szOut idx).mulF sign
  let dxo := (dxOut idx).mulF sign
  let dzo := (dzOut idx).mulF sign
  let x_location := (st.m_VertexExtrasBuffer idx).m_Ox
  let z_location := (st.m_VertexExtrasBuffer idx).m_Oz
  let factors : Option (ℚ × ℚ) :=
    match st.m_IMap with
    | none => some (st.m_HeightScale, 1 / st.m_HeightScale)
    | some im =>
      let x_0to1 := (x : ℚ) / (N : ℚ)
      let z_0to1 := (z : ℚ) / (N : ℚ)
      (GetIntensity im x_0to1 z_0to1).map fun intensity0 =>
        let intensity := if intensity0 = 0 then EPSILON else intensity0
        (st.m_HeightScale * intensity, (1 / st.m_HeightScale) * (1 / intensity))
  factors.map fun fs =>
    { m_Px := x_location + st.m_DisplaceScale * dxo.m_Real
      m_Py := ho.m_Real * fs.1
      m_Pz := z_location + st.m_DisplaceScale * dzo.m_Real
      m_Pw := old.m_Pw
      m_Nx := 0 - sxo.m_Real
      m_Ny := 1 * fs.2
      m_Nz := 0 - szo.m_Real
      m_Nw := old.m_Nw }

/-- assembleLoop is the synthesis double loop of UpdateFFT (lines 315 to 372),
iterating over the fft cells in row-major order. The mesh vertex index runs
one ahead per completed row (the extra increment at line 370), so cell idx is
written to mesh vertex idx + idx / gridDim. -/
def assembleLoop (st : WaterState)
    (hOut sxOut szOut dxOut dzOut : ℕ → Complex) (writeBuf : Buf) : Option Buf :=
  (List.range (st.gridDim * st.gridDim)).foldl
    (fun acc idx =>
      acc.bind fun b =>
        let vertex_index := idx + idx / st.gridDim
        (assembleVertex st hOut sxOut szOut dxOut dzOut idx (b vertex_index)).map
          fun v => setBuf b vertex_index v)
    (some writeBuf)

/-- stitchVert builds the edge vertex written by WaterFFT::UpdateTailEdge
(lines 426 to 437): position copied with the offset, normal copied, padding
fields of the overwritten vertex kept. -/
def stitchVert (og old : Vertex) (x_offset z_offset : ℚ) : Vertex :=
  { m_Px := og.m_Px + x_offset
    m_Py := og.m_Py
    m_Pz := og.m_Pz + z_offset
    m_Pw := old.m_Pw
    m_Nx := og.m_Nx
    m_Ny := og.m_Ny
    m_Nz := og.m_Nz
    m_Nw := old.m_Nw }

/-- UpdateTailEdgeLoop is the loop of WaterFFT::UpdateTailEdge
(lines 421 to 442), with the number of remaining iterations made explicit. -/
def UpdateTailEdgeLoop (x_offset z_offset : ℚ) (d_vertex_index : ℕ) :
    ℕ → ℕ → ℕ → Buf → Buf
  | 0, _, _, b => b
  | i + 1, up_vertex_index, og_vertex_index, b =>
    let b2 := setBuf b up_vertex_index
      (stitchVert (b og_vertex_index) (b up_vertex_index) x_offset z_offset)
    UpdateTailEdgeLoop x_offset z_offset d_vertex_index i
      (up_vertex_index + d_vertex_index) (og_vertex_index + d_vertex_index) b2

/-- WaterFFT::UpdateTailEdge (lines 391 to 443). edge = false is the call
UpdateTailEdge(0) (last column), edge = true is UpdateTailEdge(1)
(last row). -/
def UpdateTailEdge (st : WaterState) (edge : Bool) (b : Buf) : Buf :=
  if edge = false then
    UpdateTailEdgeLoop st.m_XLength 0 (m_XStride st.gridDim)
      (m_ZStride st.gridDim - 1) (m_XStride st.gridDim - 1) 0 b
  else
    UpdateTailEdgeLoop 0 st.m_ZLength 1
      (m_ZStride st.gridDim - 1) (m_XStride st.gridDim * (m_ZStride st.gridDim - 1)) 0 b

/-- cornerStitch is the tail-corner update of UpdateFFT (lines 384 to 388):
only the three position fields are written; the normal of the corner vertex
is left as it was. -/
def cornerStitch (st : WaterState) (b : Buf) : Buf :=
  let og := b 0
  let old := b (m_NumVerts st.gridDim - 1)
  setBuf b (m_NumVerts st.gridDim - 1)
    { old with
      m_Px := og.m_Px + st.m_XLength
      m_Py := og.m_Py
      m_Pz := og.m_Pz + st.m_ZLength }

/-- stitchPhase is the stitching tail of UpdateFFT (lines 374 to 389): the
two UpdateTailEdge calls followed by the tail-corner update. -/
def stitchPhase (st : WaterState) (b : Buf) : Buf :=
  cornerStitch st (UpdateTailEdge st true (UpdateTailEdge st false b))

/-- WaterFFT::UpdateFFT (lines 268 to 389). The five fftw_execute calls are
modelled by applying the collaborator transform fft to each input field; the
synthesis loop then consumes the outputs, and the two tail edges and the tail
corner are stitched. Returns the new content of the write buffer, or none
when the update crashes on a null intensity-map payload. -/
def UpdateFFT (ops : FloatOps) (fft : (ℕ → Complex) → (ℕ → Complex))
    (st : WaterState) (time : ℚ) (writeBuf : Buf) : Option Buf :=
  let hOut := fft (m_HTildeIn ops st time)
  let sxOut := fft (m_HTildeSlopeXIn ops st time)
  let szOut := fft (m_HTildeSlopeZIn ops st time)
  let dxOut := fft (m_HTildeDisplaceXIn ops st time)
  let dzOut := fft (m_HTildeDisplaceZIn ops st time)
  (assembleLoop st hOut sxOut szOut dxOut dzOut writeBuf).map (stitchPhase st)

/-- WaterFFT::Update (lines 216 to 219) forwards to UpdateFFT. -/
def Update (ops : FloatOps) (fft : (ℕ → Complex) → (ℕ → Complex))
    (st : WaterState) (time : ℚ) (writeBuf : Buf) : Option Buf :=
  UpdateFFT ops fft st time writeBuf

-- CONCRETE RUNS USED BY COUNTEREXAMPLES AND WITNESSES ------------------------

/-- demoOps is a collaborator stand-in for the math library in the concrete
runs below. The runs evaluate the trigonometric functions only at 0 (the
updates run at time 0), where the stand-in agrees with the real functions:
cos 0 = 1 and sin 0 = 0. The square root and exponential stand-ins only
influence the horizontal displacement outputs, which none of the concrete
properties below read. -/
def demoOps : FloatOps := ⟨fun _ => 0, fun _ => 1, fun _ => 0, fun _ => 1⟩

/-- demoInitVertex is the vertex the WaterFFT constructor puts in both
buffers (line 622): zero position, normal (0, 1, 0), zero padding. -/
def demoInitVertex : Vertex := ⟨0, 0, 0, 0, 0, 1, 0, 0⟩

/-- demoBuf is a write buffer holding the construction-time vertices. -/
def demoBuf : Buf := fun _ => demoInitVertex

/-- demoStateA: grid dimension 2, domain length 9, unit scales, gravity
9.81, no intensity map; every cell is seeded with the purely imaginary
coefficient i and a zero conjugate coefficient. -/
def demoStateA : WaterState :=
  ⟨2, 9, 9, 1, 1, 981 / 100, fun _ => ⟨0, 0, 0, ⟨0, 1⟩, ⟨0, 0⟩⟩, none⟩

/-- demoStateB: like demoStateA but cell 2 is seeded with the real
coefficient 4 and all other cells with 0, giving distinct heights across the
mesh. -/
def demoStateB : WaterState :=
  ⟨2, 9, 9, 1, 1, 981 / 100,
   fun idx => ⟨0, 0, 0, ⟨if idx = 2 then 4 else 0, 0⟩, ⟨0, 0⟩⟩, none⟩

/-- demoOutA is the buffer produced by an update of demoStateA at time 0 with
the identity collaborator transform. -/
def demoOutA : Buf := (UpdateFFT demoOps id demoStateA 0 demoBuf).getD demoBuf

/-- demoOutB is the buffer produced by an update of demoStateB at time 0 with
the identity collaborator transform. -/
def demoOutB : Buf := (UpdateFFT demoOps id demoStateB 0 demoBuf).getD demoBuf

/-- failedMap is the IntensityMap built when stbi_load fails: m_Data is null;
the width, height, m_MaxX and m_MaxY members keep indeterminate values,
represented by 0. -/
def failedMap : IntensityMap := ⟨none, 0, 0, 0, 0⟩

-- HELPER LEMMAS --------------------------------------------------------------

/-- runningSign is an alternating sign: after f flips it equals (-1)^f. -/
theorem runningSign_eq (f : ℕ) : runningSign f = (-1 : ℚ) ^ f := by
  induction f with
  | zero => rfl
  | succ n ih => rw [runningSign, ih, pow_succ]; ring

/-- Powers of two pass the power-of-two loop of the constructor. -/
theorem gridDimCheckFails_pow2 (k : ℕ) : gridDimCheckFails (2 ^ k) = false := by
  induction k with
  | zero => unfold gridDimCheckFails; norm_num
  | succ n ih =>
    unfold gridDimCheckFails
    rcases Nat.lt_or_ge 2 (2 ^ (n + 1)) with h | h
    · rw [dif_pos h]
      have hmod : 2 ^ (n + 1) % 2 = 0 := by
        rw [pow_succ]; exact Nat.mul_mod_left _ 2
      have hdiv : 2 ^ (n + 1) / 2 = 2 ^ n := by
        rw [pow_succ]; exact Nat.mul_div_cancel _ (by norm_num)
      simp [hmod, hdiv, ih]
    · rw [dif_neg (by omega)]

/-- A positive grid dimension that is not a power of two is caught by the
power-of-two loop of the constructor. -/
theorem fails_of_not_pow2 (gd : ℕ) :
    1 ≤ gd → (¬ ∃ k : ℕ, gd = 2 ^ k) → gridDimCheckFails gd = true := by
  induction gd using Nat.strong_induction_on with
  | _ gd ih =>
    intro h1 h2
    by_cases h : 2 < gd
    · unfold gridDimCheckFails
      rw [dif_pos h]
      by_cases hodd : gd % 2 = 0
      · have hrec : gridDimCheckFails (gd / 2) = true := by
          apply ih (gd / 2) (Nat.div_lt_self (by omega) (by omega)) (by omega)
          rintro ⟨k, hk⟩
          exact h2 ⟨k + 1, by rw [pow_succ, ← hk]; omega⟩
        simp [hodd, hrec]
      · simp [hodd]
    · exfalso
      apply h2
      have hb : gd ≤ 2 := by omega
      interval_cases gd
      · exact ⟨0, by norm_num⟩
      · exact ⟨1, by norm_num⟩

/-- Two mesh indices written as row * stride + column are distinct when the
rows or the columns differ (columns below the stride). -/
theorem grid_index_ne (M a1 r1 a2 r2 : ℕ) (hr1 : r1 < M) (hr2 : r2 < M)
    (h : a1 ≠ a2 ∨ r1 ≠ r2) : a1 * M + r1 ≠ a2 * M + r2 := by
  intro hEq
  have hmod : r1 = r2 := by
    have h1 : (a1 * M + r1) % M = (a2 * M + r2) % M := by rw [hEq]
    have e1 : (a1 * M + r1) % M = r1 := by
      rw [Nat.mul_comm, Nat.mul_add_mod, Nat.mod_eq_of_lt hr1]
    have e2 : (a2 * M + r2) % M = r2 := by
      rw [Nat.mul_comm, Nat.mul_add_mod, Nat.mod_eq_of_lt hr2]
    rw [e1, e2] at h1
    exact h1
  have hrow : a1 = a2 := by
    subst hmod
    have h2 : a1 * M = a2 * M := by omega
    exact Nat.eq_of_mul_eq_mul_right (by omega) h2
  rcases h with h | h
  · exact h hrow
  · exact h hmod

/-- foldStep is the shape of one iteration of the synthesis loop: read the
target vertex, build its replacement, write it back; a crash propagates. -/
def foldStep (pos : ℕ → ℕ) (g : ℕ → Vertex → Option Vertex) :
    Option Buf → ℕ → Option Buf :=
  fun acc idx =>
    acc.bind fun b => (g idx (b (pos idx))).map fun v => setBuf b (pos idx) v

/-- assembleLoop is the range fold of foldStep over the fft cells. -/
theorem assembleLoop_eq_fold (st : WaterState)
    (hOut sxOut szOut dxOut dzOut : ℕ → Complex) (writeBuf : Buf) :
    assembleLoop st hOut sxOut szOut dxOut dzOut writeBuf =
      (List.range (st.gridDim * st.gridDim)).foldl
        (foldStep (fun idx => idx + idx / st.gridDim)
          (fun idx old => assembleVertex st hOut sxOut szOut dxOut dzOut idx old))
        (some writeBuf) := rfl

/-- A crashed synthesis loop stays crashed. -/
theorem foldStep_none (pos : ℕ → ℕ) (g : ℕ → Vertex → Option Vertex)
    (l : List ℕ) : l.foldl (foldStep pos g) none = none := by
  induction l with
  | nil => rfl
  | cons idx rest ih => simpa [foldStep] using ih

/-- A vertex whose index the synthesis loop never writes keeps its prior
value. -/
theorem foldStep_untouched (pos : ℕ → ℕ) (g : ℕ → Vertex → Option Vertex) :
    ∀ (l : List ℕ) (b r : Buf) (j : ℕ),
      l.foldl (foldStep pos g) (some b) = some r →
      (∀ idx ∈ l, j ≠ pos idx) → r j = b j := by
  intro l
  induction l with
  | nil =>
    intro b r j hfold hmem
    cases hfold
    rfl
  | cons idx rest ih =>
    intro b r j hfold hmem
    have hstep : foldStep pos g (some b) idx =
        (g idx (b (pos idx))).map fun v => setBuf b (pos idx) v := rfl
    rw [List.foldl_cons, hstep] at hfold
    rcases hv : g idx (b (pos idx)) with _ | v
    · rw [hv, Option.map_none', foldStep_none] at hfold
      cases hfold
    · rw [hv, Option.map_some'] at hfold
      have hj : j ≠ pos idx := hmem idx (by simp)
      have hrec := ih (setBuf b (pos idx) v) r j hfold
        (fun i hi => hmem i (by simp [hi]))
      rw [hrec]
      simp [setBuf, hj]

/-- A vertex outside the written arithmetic progression is untouched by one
tail-edge loop. -/
theorem tailEdgeLoop_untouched (x_offset z_offset : ℚ) (step : ℕ) :
    ∀ (iters up og : ℕ) (b : Buf) (j : ℕ),
      (∀ t, t < iters → j ≠ up + t * step) →
      UpdateTailEdgeLoop x_offset z_offset step iters up og b j = b j := by
  intro iters
  induction iters with
  | zero => intro up og b j _; rfl
  | succ i ih =>
    intro up og b j h
    have hj : j ≠ up := by
      have := h 0 (by omega)
      simpa using this
    rw [UpdateTailEdgeLoop]
    rw [ih (up + step) (og + step) _ j ?_]
    · simp [setBuf, hj]
    · intro t ht hEq
      exact h (t + 1) (by omega) (by rw [hEq, Nat.succ_mul]; ring)

/-- The vertex written at iteration t of a tail-edge loop is the stitch of
the source vertex the loop read at that iteration; when no source index is
ever a target index, the read values are those of the initial buffer. -/
theorem tailEdgeLoop_written (x_offset z_offset : ℚ) (step : ℕ) (hstep : 1 ≤ step) :
    ∀ (iters t up og : ℕ) (b : Buf),
      t < iters →
      (∀ t1 t2, t1 < iters → t2 < iters → og + t1 * step ≠ up + t2 * step) →
      UpdateTailEdgeLoop x_offset z_offset step iters up og b (up + t * step) =
        stitchVert (b (og + t * step)) (b (up + t * step)) x_offset z_offset := by
  intro iters
  induction iters with
  | zero => intro t up og b ht _; exact absurd ht (Nat.not_lt_zero t)
  | succ i ih =>
    intro t up og b ht hdisj
    rw [UpdateTailEdgeLoop]
    cases t with
    | zero =>
      rw [tailEdgeLoop_untouched x_offset z_offset step i (up + step) (og + step) _
        (up + 0 * step) ?_]
      · simp [setBuf]
      · intro t1 ht1 hEq
        have hlt : up + 0 * step < up + step + t1 * step := by
          have h1 : 1 ≤ step + t1 * step := le_trans hstep (Nat.le_add_right step _)
          omega
        rw [Nat.add_assoc] at hEq
        exact absurd hEq (Nat.ne_of_lt (by omega))
    | succ s =>
      have harrU : up + (s + 1) * step = up + step + s * step := by
        rw [Nat.succ_mul]; ring
      have harrO : og + (s + 1) * step = og + step + s * step := by
        rw [Nat.succ_mul]; ring
      rw [harrU, ih s (up + step) (og + step) _ (by omega) ?_]
      · have hneO : og + step + s * step ≠ up := by
          intro hEq
          exact hdisj (s + 1) 0 (by omega) (by omega) (by rw [harrO, hEq]; simp)
        have hneU : up + step + s * step ≠ up := by
          have h1 : 1 ≤ step + s * step := le_trans hstep (Nat.le_add_right step _)
          omega
        rw [← harrU, ← harrO]
        simp only [setBuf, harrU, harrO, if_neg hneO, if_neg hneU]
      · intro t1 t2 ht1 ht2 hEq
        apply hdisj (t1 + 1) (t2 + 1) (by omega) (by omega)
        rw [Nat.succ_mul, Nat.succ_mul]
        calc og + (t1 * step + step) = og + step + t1 * step := by ring
          _ = up + step + t2 * step := hEq
          _ = up + (t2 * step + step) := by ring

/-- UpdateTailEdge with edge 0 is the loop over the last column: it starts
at vertex m_XStride - 1 = gridDim, advances by m_XStride = gridDim + 1 and
runs m_ZStride - 1 = gridDim times. -/
theorem UpdateTailEdge_false (st : WaterState) (b : Buf) :
    UpdateTailEdge st false b =
      UpdateTailEdgeLoop st.m_XLength 0 (st.gridDim + 1) st.gridDim st.gridDim 0 b := by
  simp [UpdateTailEdge, m_XStride, m_ZStride]

/-- UpdateTailEdge with edge 1 is the loop over the last row: it starts at
vertex m_XStride * (m_ZStride - 1), advances by 1 and runs gridDim times. -/
theorem UpdateTailEdge_true (st : WaterState) (b : Buf) :
    UpdateTailEdge st true b =
      UpdateTailEdgeLoop 0 st.m_ZLength 1 st.gridDim
        ((st.gridDim + 1) * st.gridDim) 0 b := by
  simp [UpdateTailEdge, m_XStride, m_ZStride]

/-- The corner vertex index m_NumVerts - 1 in row/column form. -/
theorem m_NumVerts_sub_one (N : ℕ) : m_NumVerts N - 1 = N * (N + 1) + N := by
  unfold m_NumVerts m_XStride m_ZStride
  rw [Nat.succ_mul, Nat.add_sub_assoc (by omega), Nat.add_sub_cancel]

/-- cornerStitch at the corner index: positions rebuilt from vertex 0, all
other fields kept. -/
theorem cornerStitch_at (st : WaterState) (b : Buf) :
    cornerStitch st b (st.gridDim * (st.gridDim + 1) + st.gridDim) =
      { b (st.gridDim * (st.gridDim + 1) + st.gridDim) with
        m_Px := (b 0).m_Px + st.m_XLength
        m_Py := (b 0).m_Py
        m_Pz := (b 0).m_Pz + st.m_ZLength } := by
  unfold cornerStitch setBuf
  rw [m_NumVerts_sub_one, if_pos rfl]

/-- cornerStitch leaves every other vertex alone. -/
theorem cornerStitch_ne (st : WaterState) (b : Buf) (j : ℕ)
    (hj : j ≠ st.gridDim * (st.gridDim + 1) + st.gridDim) :
    cornerStitch st b j = b j := by
  unfold cornerStitch setBuf
  rw [m_NumVerts_sub_one, if_neg hj]

/-- A vertex outside the last column is untouched by the first tail-edge
call. -/
theorem tail0_untouched (st : WaterState) (b : Buf) (j : ℕ)
    (h : ∀ t, t < st.gridDim → j ≠ t * (st.gridDim + 1) + st.gridDim) :
    UpdateTailEdge st false b j = b j := by
  rw [UpdateTailEdge_false]
  exact tailEdgeLoop_untouched _ _ _ _ _ _ _ _
    (fun t ht hEq => h t ht (hEq.trans (by ring)))

/-- A vertex outside the last row is untouched by the second tail-edge
call. -/
theorem tail1_untouched (st : WaterState) (b : Buf) (j : ℕ)
    (h : ∀ t, t < st.gridDim → j ≠ st.gridDim * (st.gridDim + 1) + t) :
    UpdateTailEdge st true b j = b j := by
  rw [UpdateTailEdge_true]
  exact tailEdgeLoop_untouched _ _ _ _ _ _ _ _
    (fun t ht hEq => h t ht (hEq.trans (by ring)))

/-- A vertex outside the last column, last row and corner is untouched by the
whole stitch phase. -/
theorem stitchPhase_untouched (st : WaterState) (b : Buf) (j : ℕ)
    (h1 : ∀ t, t < st.gridDim → j ≠ t * (st.gridDim + 1) + st.gridDim)
    (h2 : ∀ t, t < st.gridDim → j ≠ st.gridDim * (st.gridDim + 1) + t)
    (h3 : j ≠ st.gridDim * (st.gridDim + 1) + st.gridDim) :
    stitchPhase st b j = b j := by
  unfold stitchPhase
  rw [cornerStitch_ne st _ j h3, tail1_untouched st _ j h2, tail0_untouched st b j h1]

/-- A first-column vertex is untouched by the stitch phase. -/
theorem stitchPhase_firstCol (st : WaterState) (b : Buf) (z : ℕ)
    (hN : 1 ≤ st.gridDim) (hz : z < st.gridDim) :
    stitchPhase st b (z * (st.gridDim + 1)) = b (z * (st.gridDim + 1)) := by
  apply stitchPhase_untouched
  · intro t ht hEq
    exact grid_index_ne (st.gridDim + 1) z 0 t st.gridDim (by omega) (by omega)
      (Or.inr (by omega)) (by rw [← hEq]; ring)
  · intro t ht hEq
    exact grid_index_ne (st.gridDim + 1) z 0 st.gridDim t (by omega) (by omega)
      (Or.inl (by omega)) (by rw [← hEq]; ring)
  · intro hEq
    exact grid_index_ne (st.gridDim + 1) z 0 st.gridDim st.gridDim (by omega)
      (by omega) (Or.inr (by omega)) (by rw [← hEq]; ring)

/-- A first-row vertex is untouched by the stitch phase. -/
theorem stitchPhase_firstRow (st : WaterState) (b : Buf) (x : ℕ)
    (hN : 1 ≤ st.gridDim) (hx : x < st.gridDim) :
    stitchPhase st b x = b x := by
  apply stitchPhase_untouched
  · intro t ht hEq
    exact grid_index_ne (st.gridDim + 1) 0 x t st.gridDim (by omega) (by omega)
      (Or.inr (by omega)) (by rw [← hEq]; ring)
  · intro t ht hEq
    exact grid_index_ne (st.gridDim + 1) 0 x st.gridDim t (by omega) (by omega)
      (Or.inl (by omega)) (by rw [← hEq]; ring)
  · intro hEq
    exact grid_index_ne (st.gridDim + 1) 0 x st.gridDim st.gridDim (by omega)
      (by omega) (Or.inl (by omega)) (by rw [← hEq]; ring)

/-- The stitch phase writes each last-column vertex (rows below the last)
from its first-column counterpart. -/
theorem stitchPhase_lastCol (st : WaterState) (b : Buf) (z : ℕ)
    (hN : 1 ≤ st.gridDim) (hz : z < st.gridDim) :
    stitchPhase st b (z * (st.gridDim + 1) + st.gridDim) =
      stitchVert (b (z * (st.gridDim + 1)))
        (b (z * (st.gridDim + 1) + st.gridDim)) st.m_XLength 0 := by
  have hc3 : z * (st.gridDim + 1) + st.gridDim
      ≠ st.gridDim * (st.gridDim + 1) + st.gridDim :=
    grid_index_ne (st.gridDim + 1) z st.gridDim st.gridDim st.gridDim
      (by omega) (by omega) (Or.inl (by omega))
  have hc2 : ∀ t, t < st.gridDim → z * (st.gridDim + 1) + st.gridDim
      ≠ st.gridDim * (st.gridDim + 1) + t := fun t ht =>
    grid_index_ne (st.gridDim + 1) z st.gridDim st.gridDim t
      (by omega) (by omega) (Or.inr (by omega))
  have hdisj : ∀ t1 t2, t1 < st.gridDim → t2 < st.gridDim →
      0 + t1 * (st.gridDim + 1) ≠ st.gridDim + t2 * (st.gridDim + 1) := by
    intro t1 t2 h1 h2 hEq
    apply grid_index_ne (st.gridDim + 1) t1 0 t2 st.gridDim (by omega) (by omega)
      (Or.inr (by omega))
    calc t1 * (st.gridDim + 1) + 0 = 0 + t1 * (st.gridDim + 1) := by ring
      _ = st.gridDim + t2 * (st.gridDim + 1) := hEq
      _ = t2 * (st.gridDim + 1) + st.gridDim := by ring
  have h3 := tailEdgeLoop_written st.m_XLength 0 (st.gridDim + 1) (by omega)
    st.gridDim z st.gridDim 0 b hz hdisj
  have hidx : z * (st.gridDim + 1) + st.gridDim
      = st.gridDim + z * (st.gridDim + 1) := by ring
  unfold stitchPhase
  rw [cornerStitch_ne st _ _ hc3, tail1_untouched st _ _ hc2,
    UpdateTailEdge_false, hidx, h3, Nat.zero_add, ← hidx]

/-- The stitch phase writes each last-row vertex (columns below the last)
from its first-row counterpart, as left by the first tail-edge call. -/
theorem stitchPhase_lastRow (st : WaterState) (b : Buf) (x : ℕ)
    (hN : 1 ≤ st.gridDim) (hx : x < st.gridDim) :
    stitchPhase st b (st.gridDim * (st.gridDim + 1) + x) =
      stitchVert (b x)
        (UpdateTailEdge st false b (st.gridDim * (st.gridDim + 1) + x))
        0 st.m_ZLength := by
  have hc3 : st.gridDim * (st.gridDim + 1) + x
      ≠ st.gridDim * (st.gridDim + 1) + st.gridDim :=
    grid_index_ne (st.gridDim + 1) st.gridDim x st.gridDim st.gridDim
      (by omega) (by omega) (Or.inr (by omega))
  have hdisj : ∀ t1 t2, t1 < st.gridDim → t2 < st.gridDim →
      0 + t1 * 1 ≠ (st.gridDim + 1) * st.gridDim + t2 * 1 := by
    intro t1 t2 h1 h2 hEq
    apply grid_index_ne (st.gridDim + 1) 0 t1 st.gridDim t2 (by omega) (by omega)
      (Or.inl (by omega))
    calc (0 : ℕ) * (st.gridDim + 1) + t1 = 0 + t1 * 1 := by ring
      _ = (st.gridDim + 1) * st.gridDim + t2 * 1 := hEq
      _ = st.gridDim * (st.gridDim + 1) + t2 := by ring
  have hrow : UpdateTailEdge st false b x = b x := by
    apply tail0_untouched
    intro t ht hEq
    exact grid_index_ne (st.gridDim + 1) 0 x t st.gridDim (by omega) (by omega)
      (Or.inr (by omega)) (by rw [← hEq]; ring)
  have h3 := tailEdgeLoop_written 0 st.m_ZLength 1 (by omega) st.gridDim x
    ((st.gridDim + 1) * st.gridDim) 0 (UpdateTailEdge st false b) hx hdisj
  have hidx : st.gridDim * (st.gridDim + 1) + x
      = (st.gridDim + 1) * st.gridDim + x * 1 := by ring
  have hidx0 : (0 : ℕ) + x * 1 = x := by ring
  unfold stitchPhase
  rw [cornerStitch_ne st _ _ hc3, UpdateTailEdge_true, hidx, h3, hidx0, hrow, ← hidx]

/-- The stitch phase rebuilds the corner position from vertex 0, which it
never touches. -/
theorem stitchPhase_corner_pos (st : WaterState) (b : Buf) (hN : 1 ≤ st.gridDim) :
    (stitchPhase st b (st.gridDim * (st.gridDim + 1) + st.gridDim)).m_Px
        = (b 0).m_Px + st.m_XLength
  ∧ (stitchPhase st b (st.gridDim * (st.gridDim + 1) + st.gridDim)).m_Py
        = (b 0).m_Py
  ∧ (stitchPhase st b (st.gridDim * (st.gridDim + 1) + st.gridDim)).m_Pz
        = (b 0).m_Pz + st.m_ZLength := by
  have h0 : UpdateTailEdge st true (UpdateTailEdge st false b) 0 = b 0 := by
    rw [tail1_untouched st _ 0 ?_, tail0_untouched st b 0 ?_]
    · intro t ht hEq
      exact grid_index_ne (st.gridDim + 1) 0 0 t st.gridDim (by omega) (by omega)
        (Or.inr (by omega)) (by rw [← hEq]; ring)
    · intro t ht hEq
      exact grid_index_ne (st.gridDim + 1) 0 0 st.gridDim t (by omega) (by omega)
        (Or.inl (by omega)) (by rw [← hEq]; ring)
  unfold stitchPhase
  rw [cornerStitch_at, h0]
  exact ⟨rfl, rfl, rfl⟩

/-- The stitch phase leaves the corner normal exactly as the buffer held it
before stitching. -/
theorem stitchPhase_corner_normal (st : WaterState) (b : Buf) (hN : 1 ≤ st.gridDim) :
    (stitchPhase st b (st.gridDim * (st.gridDim + 1) + st.gridDim)).m_Nx
        = (b (st.gridDim * (st.gridDim + 1) + st.gridDim)).m_Nx
  ∧ (stitchPhase st b (st.gridDim * (st.gridDim + 1) + st.gridDim)).m_Ny
        = (b (st.gridDim * (st.gridDim + 1) + st.gridDim)).m_Ny
  ∧ (stitchPhase st b (st.gridDim * (st.gridDim + 1) + st.gridDim)).m_Nz
        = (b (st.gridDim * (st.gridDim + 1) + st.gridDim)).m_Nz := by
  have hc : UpdateTailEdge st true (UpdateTailEdge st false b)
      (st.gridDim * (st.gridDim + 1) + st.gridDim)
      = b (st.gridDim * (st.gridDim + 1) + st.gridDim) := by
    rw [tail1_untouched st _ _ ?_, tail0_untouched st b _ ?_]
    · intro t ht
      exact grid_index_ne (st.gridDim + 1) st.gridDim st.gridDim t st.gridDim
        (by omega) (by omega) (Or.inl (by omega))
    · intro t ht
      exact grid_index_ne (st.gridDim + 1) st.gridDim st.gridDim st.gridDim t
        (by omega) (by omega) (Or.inr (by omega))
  unfold stitchPhase
  rw [cornerStitch_at, hc]
  exact ⟨rfl, rfl, rfl⟩

/-- The synthesis loop never writes the corner vertex: its targets
idx + idx / gridDim stay below gridDim * (gridDim + 1). -/
theorem assembleLoop_corner (st : WaterState)
    (hOut sxOut szOut dxOut dzOut : ℕ → Complex) (b b0 : Buf)
    (hN : 1 ≤ st.gridDim)
    (hb0 : assembleLoop st hOut sxOut szOut dxOut dzOut b = some b0) :
    b0 (st.gridDim * (st.gridDim + 1) + st.gridDim)
      = b (st.gridDim * (st.gridDim + 1) + st.gridDim) := by
  rw [assembleLoop_eq_fold] at hb0
  apply foldStep_untouched _ _ _ _ _ _ hb0
  intro idx hidx
  have hlt : idx < st.gridDim * st.gridDim := List.mem_range.mp hidx
  have hd : idx / st.gridDim < st.gridDim :=
    (Nat.div_lt_iff_lt_mul (by omega)).mpr hlt
  have h1 : idx + idx / st.gridDim < st.gridDim * st.gridDim + st.gridDim :=
    Nat.add_lt_add hlt hd
  have h2 : st.gridDim * st.gridDim + st.gridDim
      = st.gridDim * (st.gridDim + 1) := by ring
  rw [h2] at h1
  exact Nat.ne_of_gt
    (Nat.lt_of_lt_of_le h1 (Nat.le_add_right _ st.gridDim))

/-- wrapIndexFloat reduces its input to the canonical representative in
[0, max) modulo max: in exact arithmetic the two reduction branches agree
with max times the fractional part of x / max. -/
theorem wrapIndexFloat_eq (x mx : ℚ) (hmx : 0 < mx) :
    wrapIndexFloat x mx = mx * Int.fract (x / mx) := by
  have hmx0 : mx ≠ 0 := ne_of_gt hmx
  unfold wrapIndexFloat
  rcases le_or_lt mx x with hge | hlt
  · rw [if_pos hge]
    have hr1 : (1 : ℚ) ≤ x / mx := (one_le_div hmx).mpr hge
    have hfl : (0 : ℤ) ≤ ⌊x / mx⌋ := by
      have h1 : (1 : ℤ) ≤ ⌊x / mx⌋ := Int.le_floor.mpr (by exact_mod_cast hr1)
      omega
    have htn : ((⌊x / mx⌋.toNat : ℕ) : ℚ) = ((⌊x / mx⌋ : ℤ) : ℚ) := by
      exact_mod_cast congrArg (fun z : ℤ => (z : ℚ)) (Int.toNat_of_nonneg hfl)
    have hval : x - ((⌊x / mx⌋ : ℤ) : ℚ) * mx = mx * Int.fract (x / mx) := by
      rw [Int.fract]
      field_simp
      ring
    rw [htn, hval,
      if_neg (not_lt.mpr (mul_nonneg hmx.le (Int.fract_nonneg _)))]
  · rw [if_neg (not_le.mpr hlt)]
    rcases lt_or_le x 0 with hneg | hpos
    · rw [if_pos hneg]
      have hr : x / mx < 0 := div_neg_of_neg_of_pos hneg hmx
      have hfl : ⌊x / mx⌋ < 0 := Int.floor_lt.mpr (by exact_mod_cast hr)
      have hceil : ⌈-x / mx⌉ = -⌊x / mx⌋ := by
        rw [neg_div, Int.ceil_neg]
      have htn : ((⌈-x / mx⌉.toNat : ℕ) : ℚ) = ((-⌊x / mx⌋ : ℤ) : ℚ) := by
        rw [hceil]
        exact_mod_cast congrArg (fun z : ℤ => (z : ℚ))
          (Int.toNat_of_nonneg (show (0 : ℤ) ≤ -⌊x / mx⌋ by omega))
      rw [htn, Int.fract]
      push_cast
      field_simp
      ring
    · rw [if_neg (not_lt.mpr hpos)]
      have h0 : ⌊x / mx⌋ = 0 := by
        apply Int.floor_eq_zero_iff.mpr
        exact ⟨div_nonneg hpos hmx.le, (div_lt_one hmx).mpr hlt⟩
      rw [Int.fract, h0]
      push_cast
      field_simp

/-- The wrapped coordinate lands in [0, max). -/
theorem wrapIndexFloat_bounds (x mx : ℚ) (hmx : 0 < mx) :
    0 ≤ wrapIndexFloat x mx ∧ wrapIndexFloat x mx < mx := by
  rw [wrapIndexFloat_eq x mx hmx]
  constructor
  · exact mul_nonneg hmx.le (Int.fract_nonneg _)
  · have h1 := mul_lt_mul_of_pos_left (Int.fract_lt_one (x / mx)) hmx
    simpa using h1

/-- The wrap is invariant under adding a natural multiple of max. -/
theorem wrapIndexFloat_period (x mx : ℚ) (c : ℕ) (hmx : 0 < mx) :
    wrapIndexFloat (x + (c : ℚ) * mx) mx = wrapIndexFloat x mx := by
  rw [wrapIndexFloat_eq _ _ hmx, wrapIndexFloat_eq _ _ hmx]
  congr 1
  have hmx0 : mx ≠ 0 := ne_of_gt hmx
  have hdiv : (x + (c : ℚ) * mx) / mx = x / mx + (c : ℚ) := by
    field_simp
  rw [hdiv]
  exact_mod_cast Int.fract_add_nat (x / mx) c

/-- Both index coordinates wrap with period gridDim, so the whole mesh
position query does. -/
theorem LocationToMeshPosition_period (gridDim : ℕ) (loc1 loc2 : ℚ) (c : ℕ)
    (hN : 1 ≤ gridDim) :
    LocationToMeshPosition gridDim (loc1 + (c : ℚ) * (gridDim : ℚ), loc2)
      = LocationToMeshPosition gridDim (loc1, loc2) := by
  have hpos : (0 : ℚ) < (gridDim : ℚ) := by exact_mod_cast hN
  have hsub : (m_XStride gridDim - 1 : ℕ) = gridDim := by simp [m_XStride]
  have hsubz : (m_ZStride gridDim - 1 : ℕ) = gridDim := by simp [m_ZStride]
  unfold LocationToMeshPosition
  rw [hsub, hsubz]
  dsimp only
  rw [show loc1 + (c : ℚ) * (gridDim : ℚ) + (m_XStride gridDim : ℚ) / 2
      = loc1 + (m_XStride gridDim : ℚ) / 2 + (c : ℚ) * (gridDim : ℚ) from by ring,
    wrapIndexFloat_period _ _ c hpos]

-- CLAIM THEOREMS -------------------------------------------------------------

/-- C1: what WaterFFT::HTilde actually returns at time 0. For any math
library whose cosine and sine agree with the real ones at 0, and for every
seed pair and wavevector, HTilde(s, sConj, k, 0) evaluates to s - sConj: the
source builds e_2 = (-cos wt, -sin wt), which is -e^(iwt) and not the
e^(-iwt) = (cos wt, -sin wt) announced in its own comment (line 535), so the
two seeds are subtracted at time zero instead of added. -/
theorem HTilde_time_zero (ops : FloatOps) (m_Gravity : ℚ) (s sConj : Complex)
    (k : ℚ × ℚ) (hcos : ops.cosF 0 = 1) (hsin : ops.sinF 0 = 0) :
    HTilde ops m_Gravity s sConj k 0 = s.sub sConj := by
  unfold HTilde
  simp only [mul_zero]
  rw [hcos, hsin]
  cases s
  cases sConj
  simp only [Complex.mul, Complex.add, Complex.sub, Complex.mk.injEq]
  constructor <;> ring

/-- C1 witness: at the concrete seed pair s = sConj = 1 and time 0 the code
produces s - sConj = 0, which differs from the claimed s + sConj = 2. -/
theorem HTilde_time_zero_witness :
    HTilde demoOps (981 / 100) ⟨1, 0⟩ ⟨1, 0⟩ (0, 0) 0 = Complex.sub ⟨1, 0⟩ ⟨1, 0⟩
  ∧ Complex.sub ⟨1, 0⟩ ⟨1, 0⟩ ≠ Complex.add ⟨1, 0⟩ ⟨1, 0⟩ :=
  ⟨HTilde_time_zero demoOps (981 / 100) ⟨1, 0⟩ ⟨1, 0⟩ (0, 0) rfl rfl, by
    simp only [Complex.sub, Complex.add, Complex.mk.injEq]
    norm_num⟩

/-- C2: the grid-spacing check of the constructor does not depend on the grid
dimension. With grid dimension 256 and domain length 1 the claimed ratio
1/256 is far below MIN_DX_DZ, yet whether SMALL_DX_DZ is raised is decided by
the indeterminate prior content of m_XStride (assigned only after the check):
with residue 1 construction passes both checks, with residue 100 it raises
SMALL_DX_DZ. -/
theorem constructError_uninitialized_stride :
    constructError 256 1 1 = none
  ∧ (1 : ℚ) / 256 < MIN_DX_DZ
  ∧ constructError 256 1 100 = some ErrorType.SMALL_DX_DZ := by
  have h256 : gridDimCheckFails 256 = false := by
    have h : (256 : ℕ) = 2 ^ 8 := by norm_num
    rw [h]
    exact gridDimCheckFails_pow2 8
  refine ⟨?_, by norm_num [MIN_DX_DZ], ?_⟩
  · norm_num [constructError, h256, MIN_DX_DZ]
  · norm_num [constructError, h256, MIN_DX_DZ]

/-- C3 counterexample: grid dimension 0 is not a power of two, yet the
power-of-two loop (entered only while gd_check exceeds 2) accepts it and
construction with domain length 1 raises no error at all. -/
theorem gridDim_zero_counterexample :
    constructError 0 1 1 = none ∧ ¬ ∃ k : ℕ, (0 : ℕ) = 2 ^ k := by
  constructor
  · have h0 : gridDimCheckFails 0 = false := by
      unfold gridDimCheckFails
      norm_num
    norm_num [constructError, h0, MIN_DX_DZ]
  · rintro ⟨k, hk⟩
    have hp := pow_pos (show (0 : ℕ) < 2 by norm_num) k
    omega

/-- C3 (amended): for every positive grid dimension that is not a power of
two, construction raises INVALID_GRID_DIM (whatever the other parameters and
the indeterminate stride residue); for every power of two this error is not
raised. Grid dimension 0, which is not a power of two, is the one value the
check wrongly accepts. -/
theorem constructError_grid_dim (gd : ℕ) (meter : ℚ) (junk : ℕ) :
    (1 ≤ gd → (¬ ∃ k : ℕ, gd = 2 ^ k) →
      constructError gd meter junk = some ErrorType.INVALID_GRID_DIM)
  ∧ ((∃ k : ℕ, gd = 2 ^ k) →
      constructError gd meter junk ≠ some ErrorType.INVALID_GRID_DIM) := by
  constructor
  · intro h1 h2
    have hf := fails_of_not_pow2 gd h1 h2
    simp [constructError, hf]
  · rintro ⟨k, rfl⟩
    have hp := gridDimCheckFails_pow2 k
    simp only [constructError, hp, Bool.false_eq_true, if_false]
    split
    · simp
    · simp

/-- C3 witness: 12 is not a power of two and raises INVALID_GRID_DIM; 8 is a
power of two and does not. -/
theorem constructError_grid_dim_witness :
    constructError 12 1 1 = some ErrorType.INVALID_GRID_DIM
  ∧ constructError 8 1 1 ≠ some ErrorType.INVALID_GRID_DIM := by
  constructor
  · apply (constructError_grid_dim 12 1 1).1 (by norm_num)
    rintro ⟨k, hk⟩
    rcases Nat.lt_or_ge k 4 with hsmall | hbig
    · interval_cases k <;> norm_num at hk
    · have h16 : 2 ^ 4 ≤ 2 ^ k := Nat.pow_le_pow_right (by norm_num) hbig
      rw [← hk] at h16
      norm_num at h16
  · exact (constructError_grid_dim 8 1 1).2 ⟨3, by norm_num⟩

/-- C4: after UseIntensityMap with a failed decode the map member is not
null (the core is not in the no-map state), and the next Update crashes on
the null image payload (modelled as none) instead of producing the buffer
the no-map update produces. -/
theorem UseIntensityMap_failed_decode :
    ((UseIntensityMap demoStateA failedMap).m_IMap).isSome = true
  ∧ (UpdateFFT demoOps id (UseIntensityMap demoStateA failedMap) 0 demoBuf).isSome = false
  ∧ (UpdateFFT demoOps id demoStateA 0 demoBuf).isSome = true := by
  refine ⟨rfl, by decide, by decide⟩

/-- C5 (amended): after any update, every last-column vertex (rows below the
last) equals its first-column counterpart offset by (m_XLength, 0, 0) in
position with the same normal; every last-row vertex (columns below the
last) equals its first-row counterpart offset by (0, 0, m_ZLength) in
position with the same normal; the corner vertex equals the origin vertex
offset by (m_XLength, 0, m_ZLength) in position only - its normal is not
written by the update and keeps the value the write buffer held before the
update. -/
theorem updateFFT_seam (ops : FloatOps) (fft : (ℕ → Complex) → (ℕ → Complex))
    (st : WaterState) (time : ℚ) (b b' : Buf) (hN : 1 ≤ st.gridDim)
    (h : UpdateFFT ops fft st time b = some b') :
    (∀ z, z < st.gridDim →
      (b' (z * (st.gridDim + 1) + st.gridDim)).m_Px
          = (b' (z * (st.gridDim + 1))).m_Px + st.m_XLength
      ∧ (b' (z * (st.gridDim + 1) + st.gridDim)).m_Py
          = (b' (z * (st.gridDim + 1))).m_Py
      ∧ (b' (z * (st.gridDim + 1) + st.gridDim)).m_Pz
          = (b' (z * (st.gridDim + 1))).m_Pz
      ∧ (b' (z * (st.gridDim + 1) + st.gridDim)).m_Nx
          = (b' (z * (st.gridDim + 1))).m_Nx
      ∧ (b' (z * (st.gridDim + 1) + st.gridDim)).m_Ny
          = (b' (z * (st.gridDim + 1))).m_Ny
      ∧ (b' (z * (st.gridDim + 1) + st.gridDim)).m_Nz
          = (b' (z * (st.gridDim + 1))).m_Nz)
  ∧ (∀ x, x < st.gridDim →
      (b' (st.gridDim * (st.gridDim + 1) + x)).m_Px = (b' x).m_Px
      ∧ (b' (st.gridDim * (st.gridDim + 1) + x)).m_Py = (b' x).m_Py
      ∧ (b' (st.gridDim * (st.gridDim + 1) + x)).m_Pz = (b' x).m_Pz + st.m_ZLength
      ∧ (b' (st.gridDim * (st.gridDim + 1) + x)).m_Nx = (b' x).m_Nx
      ∧ (b' (st.gridDim * (st.gridDim + 1) + x)).m_Ny = (b' x).m_Ny
      ∧ (b' (st.gridDim * (st.gridDim + 1) + x)).m_Nz = (b' x).m_Nz)
  ∧ ((b' (st.gridDim * (st.gridDim + 1) + st.gridDim)).m_Px
        = (b' 0).m_Px + st.m_XLength
      ∧ (b' (st.gridDim * (st.gridDim + 1) + st.gridDim)).m_Py = (b' 0).m_Py
      ∧ (b' (st.gridDim * (st.gridDim + 1) + st.gridDim)).m_Pz
        = (b' 0).m_Pz + st.m_ZLength)
  ∧ ((b' (st.gridDim * (st.gridDim + 1) + st.gridDim)).m_Nx
        = (b (st.gridDim * (st.gridDim + 1) + st.gridDim)).m_Nx
      ∧ (b' (st.gridDim * (st.gridDim + 1) + st.gridDim)).m_Ny
        = (b (st.gridDim * (st.gridDim + 1) + st.gridDim)).m_Ny
      ∧ (b' (st.gridDim * (st.gridDim + 1) + st.gridDim)).m_Nz
        = (b (st.gridDim * (st.gridDim + 1) + st.gridDim)).m_Nz) := by
  unfold UpdateFFT at h
  rw [Option.map_eq_some'] at h
  obtain ⟨b0, hb0, hb'⟩ := h
  subst hb'
  refine ⟨?_, ?_, ?_, ?_⟩
  · intro z hz
    rw [stitchPhase_lastCol st b0 z hN hz, stitchPhase_firstCol st b0 z hN hz]
    exact ⟨rfl, rfl, add_zero _, rfl, rfl, rfl⟩
  · intro x hx
    rw [stitchPhase_lastRow st b0 x hN hx, stitchPhase_firstRow st b0 x hN hx]
    exact ⟨add_zero _, rfl, rfl, rfl, rfl, rfl⟩
  · rw [stitchPhase_firstRow st b0 0 hN (by omega)]
    exact stitchPhase_corner_pos st b0 hN
  · obtain ⟨h1, h2, h3⟩ := stitchPhase_corner_normal st b0 hN
    have hc := assembleLoop_corner st _ _ _ _ _ b b0 hN hb0
    exact ⟨h1.trans (congrArg Vertex.m_Nx hc), h2.trans (congrArg Vertex.m_Ny hc),
      h3.trans (congrArg Vertex.m_Nz hc)⟩

/-- range4 lists the fft cells of the 2 by 2 demo grid. -/
theorem range4 : List.range 4 = [0, 1, 2, 3] := by decide

/-- C5 witness: on the concrete demo run (grid dimension 2, domain length 9,
time 0, identity collaborator transform), the first last-column vertex is the
first first-column vertex offset by the domain length, and the corner keeps
the normal the write buffer held before the update. -/
theorem updateFFT_seam_witness :
    (demoOutA (0 * (demoStateA.gridDim + 1) + demoStateA.gridDim)).m_Px
      = (demoOutA (0 * (demoStateA.gridDim + 1))).m_Px + demoStateA.m_XLength
  ∧ (demoOutA (demoStateA.gridDim * (demoStateA.gridDim + 1) + demoStateA.gridDim)).m_Nx
      = (demoBuf (demoStateA.gridDim * (demoStateA.gridDim + 1) + demoStateA.gridDim)).m_Nx :=
  ⟨((updateFFT_seam demoOps id demoStateA 0 demoBuf demoOutA (by decide) rfl).1
      0 (by decide)).1,
   ((updateFFT_seam demoOps id demoStateA 0 demoBuf demoOutA (by decide) rfl).2.2.2).1⟩

/-- C5 counterexample: in the demo run the corner vertex (index 8 =
m_NumVerts - 1 on the 2 by 2 grid) receives the origin position offset by
(9, 0, 9) as claimed, but its normal differs from the origin normal: the
corner update writes position only, and the stale construction-time normal
(0, 1, 0) survives while the origin normal x component is nonzero. -/
theorem updateFFT_corner_normal_counterexample :
    UpdateFFT demoOps id demoStateA 0 demoBuf = some demoOutA
  ∧ (demoOutA 8).m_Px = (demoOutA 0).m_Px + 9
  ∧ (demoOutA 8).m_Py = (demoOutA 0).m_Py
  ∧ (demoOutA 8).m_Pz = (demoOutA 0).m_Pz + 9
  ∧ (demoOutA 8).m_Nx ≠ (demoOutA 0).m_Nx := by
  refine ⟨rfl, ?_⟩
  norm_num [demoOutA, UpdateFFT, stitchPhase, assembleLoop, assembleVertex, setBuf,
    UpdateTailEdge, UpdateTailEdgeLoop, cornerStitch, stitchVert,
    m_HTildeIn, m_HTildeSlopeXIn, m_HTildeSlopeZIn, m_HTildeDisplaceXIn,
    m_HTildeDisplaceZIn, hTildeAt, HTilde, DispersionRelation, kVecAt,
    signAt, signFlips, runningSign, Complex.mul, Complex.add, Complex.mulF,
    demoStateA, demoOps, demoBuf, demoInitVertex, m_XStride, m_ZStride,
    m_NumVerts, TAU, EPSILON, range4, List.foldl, Option.bind]

/-- C6 (amended): the height query is invariant under translating the
location by any natural multiple of gridDim world units; translating by the
domain length preserves the height exactly when m_XLength is such a
multiple (true of the 256 grid / 256 meter configuration the repository
ships, where the two coincide). LocationToMeshPosition adds world
coordinates directly to grid indices (the source notes the stride = length
requirement), so the wrap period is gridDim, not m_XLength. -/
theorem HeightAtLocation_period (gridDim : ℕ) (rb : Buf) (loc1 loc2 : ℚ)
    (c : ℕ) (XLen : ℚ) (hN : 1 ≤ gridDim)
    (hXL : XLen = (c : ℚ) * (gridDim : ℚ)) :
    HeightAtLocation gridDim rb (loc1 + XLen, loc2)
      = HeightAtLocation gridDim rb (loc1, loc2) := by
  subst hXL
  unfold HeightAtLocation
  rw [LocationToMeshPosition_period gridDim loc1 loc2 c hN]

/-- C6 witness: with grid dimension 2 and domain length 6 = 3 * 2, the
height query at the construction-time buffer is invariant under translating
the location by the domain length. -/
theorem HeightAtLocation_period_witness :
    HeightAtLocation 2 demoBuf (1 / 2 + 6, 1 / 2)
      = HeightAtLocation 2 demoBuf (1 / 2, 1 / 2) :=
  HeightAtLocation_period 2 demoBuf (1 / 2) (1 / 2) 3 6 (by norm_num) (by norm_num)

/-- C6 counterexample: a WaterFFT with grid dimension 2 and domain length 9
passes both constructor checks (with stride residue 1), yet after a concrete
update the height query is not invariant under translation by the domain
length: the query wraps with period 2 (the grid dimension), and 9 is not a
multiple of 2. -/
theorem heightAt_domain_length_counterexample :
    constructError 2 9 1 = none
  ∧ UpdateFFT demoOps id demoStateB 0 demoBuf = some demoOutB
  ∧ HeightAtLocation 2 demoOutB (1 / 4, 0)
      ≠ HeightAtLocation 2 demoOutB (1 / 4 + 9, 0) := by
  refine ⟨?_, rfl, ?_⟩
  · have h2 : gridDimCheckFails 2 = false := by
      have h : (2 : ℕ) = 2 ^ 1 := by norm_num
      rw [h]
      exact gridDimCheckFails_pow2 1
    norm_num [constructError, h2, MIN_DX_DZ]
  · have mp1 : LocationToMeshPosition 2 (1 / 4, 0) = ⟨4, 3 / 4, 1 / 2⟩ := by
      norm_num [LocationToMeshPosition, wrapIndexFloat, m_XStride, m_ZStride]
    have mp2 : LocationToMeshPosition 2 (1 / 4 + 9, 0) = ⟨3, 3 / 4, 1 / 2⟩ := by
      unfold LocationToMeshPosition wrapIndexFloat m_XStride m_ZStride
      norm_num
      simp
      norm_num
    unfold HeightAtLocation
    rw [mp1, mp2]
    norm_num [demoOutB, UpdateFFT, stitchPhase, assembleLoop, assembleVertex, setBuf,
      UpdateTailEdge, UpdateTailEdgeLoop, cornerStitch, stitchVert,
      m_HTildeIn, m_HTildeSlopeXIn, m_HTildeSlopeZIn, m_HTildeDisplaceXIn,
      m_HTildeDisplaceZIn, hTildeAt, HTilde, DispersionRelation, kVecAt,
      signAt, signFlips, runningSign, Complex.mul, Complex.add, Complex.mulF,
      demoStateB, demoOps, demoBuf, demoInitVertex, m_XStride, m_ZStride,
      m_NumVerts, TAU, EPSILON, range4, List.foldl, Option.bind,
      GetLocationHeightFFT, Lerp, QuadLerp]

/-- C10: for every finite location the mesh position returned by
LocationToMeshPosition has both interpolation fractions in [0, 1) and a
vertex index satisfying index + m_XStride + 1 at most m_NumVerts - 1, so
the four reads of the bilinear height and normal queries stay inside the
read buffer (exact-arithmetic model of the float computation). -/
theorem LocationToMeshPosition_safe (gridDim : ℕ) (loc : ℚ × ℚ)
    (hN : 1 ≤ gridDim) :
    0 ≤ (LocationToMeshPosition gridDim loc).m_Xt
  ∧ (LocationToMeshPosition gridDim loc).m_Xt < 1
  ∧ 0 ≤ (LocationToMeshPosition gridDim loc).m_Zt
  ∧ (LocationToMeshPosition gridDim loc).m_Zt < 1
  ∧ (LocationToMeshPosition gridDim loc).m_VertexIndex + m_XStride gridDim + 1
      ≤ m_NumVerts gridDim - 1 := by
  have hpos : (0 : ℚ) < (gridDim : ℚ) := by exact_mod_cast hN
  have key : ∀ v : ℚ,
      ⌊wrapIndexFloat v ((gridDim : ℕ) : ℚ)⌋.toNat ≤ gridDim - 1
    ∧ 0 ≤ wrapIndexFloat v ((gridDim : ℕ) : ℚ)
          - ((⌊wrapIndexFloat v ((gridDim : ℕ) : ℚ)⌋.toNat : ℕ) : ℚ)
    ∧ wrapIndexFloat v ((gridDim : ℕ) : ℚ)
          - ((⌊wrapIndexFloat v ((gridDim : ℕ) : ℚ)⌋.toNat : ℕ) : ℚ) < 1 := by
    intro v
    obtain ⟨h0, h1⟩ := wrapIndexFloat_bounds v _ hpos
    have hfl0 : 0 ≤ ⌊wrapIndexFloat v ((gridDim : ℕ) : ℚ)⌋ :=
      Int.floor_nonneg.mpr h0
    have hflN : ⌊wrapIndexFloat v ((gridDim : ℕ) : ℚ)⌋ < (gridDim : ℤ) :=
      Int.floor_lt.mpr (by exact_mod_cast h1)
    have hcast : ((⌊wrapIndexFloat v ((gridDim : ℕ) : ℚ)⌋.toNat : ℕ) : ℚ)
        = ((⌊wrapIndexFloat v ((gridDim : ℕ) : ℚ)⌋ : ℤ) : ℚ) := by
      exact_mod_cast congrArg (fun z : ℤ => (z : ℚ)) (Int.toNat_of_nonneg hfl0)
    refine ⟨by omega, ?_, ?_⟩
    · rw [hcast]
      have hle := Int.floor_le (wrapIndexFloat v ((gridDim : ℕ) : ℚ))
      linarith
    · rw [hcast]
      have hlt := Int.lt_floor_add_one (wrapIndexFloat v ((gridDim : ℕ) : ℚ))
      linarith
  have hsub : (m_XStride gridDim - 1 : ℕ) = gridDim := by simp [m_XStride]
  have hsubz : (m_ZStride gridDim - 1 : ℕ) = gridDim := by simp [m_ZStride]
  unfold LocationToMeshPosition
  rw [hsub, hsubz]
  dsimp only
  obtain ⟨hxb, hx0, hx1⟩ := key (loc.1 + (m_XStride gridDim : ℚ) / 2)
  obtain ⟨hzb, hz0, hz1⟩ := key (loc.2 + (m_ZStride gridDim : ℚ) / 2)
  refine ⟨hx0, hx1, hz0, hz1, ?_⟩
  obtain ⟨M, rfl⟩ : ∃ M, gridDim = M + 1 := ⟨gridDim - 1, by omega⟩
  apply Nat.le_sub_one_of_lt
  unfold m_NumVerts m_XStride m_ZStride at *
  have hmul : ⌊wrapIndexFloat (loc.2 + ((M + 1 + 1 : ℕ) : ℚ) / 2)
        ((M + 1 : ℕ) : ℚ)⌋.toNat * (M + 1 + 1) ≤ M * (M + 1 + 1) :=
    Nat.mul_le_mul_right _ (by omega)
  have hexp : (M + 1 + 1) * (M + 1 + 1) = M * (M + 1 + 1) + 2 * M + 4 := by
    ring
  have hxb2 : ⌊wrapIndexFloat (loc.1 + ((M + 1 + 1 : ℕ) : ℚ) / 2)
        ((M + 1 : ℕ) : ℚ)⌋.toNat ≤ M := by omega
  linarith

/-- C10 witness: the safety bounds at the concrete grid dimension 2 and the
location (-7/3, 22/5), which exercises both the negative and the
overflowing wrap branch. -/
theorem LocationToMeshPosition_safe_witness :
    0 ≤ (LocationToMeshPosition 2 (-7 / 3, 22 / 5)).m_Xt
  ∧ (LocationToMeshPosition 2 (-7 / 3, 22 / 5)).m_Xt < 1
  ∧ 0 ≤ (LocationToMeshPosition 2 (-7 / 3, 22 / 5)).m_Zt
  ∧ (LocationToMeshPosition 2 (-7 / 3, 22 / 5)).m_Zt < 1
  ∧ (LocationToMeshPosition 2 (-7 / 3, 22 / 5)).m_VertexIndex + m_XStride 2 + 1
      ≤ m_NumVerts 2 - 1 :=
  LocationToMeshPosition_safe 2 (-7 / 3, 22 / 5) (by norm_num)

/-- C7: the running sign of the synthesis loop at fft cell (z, x) equals
(-1)^(x+z) for every power-of-two grid dimension: the sign has been flipped
z * gridDim + x + z times when the cell is processed, and the extra
end-of-row flip keeps the parity aligned with x + z because the row length
is even (or the grid has a single cell). -/
theorem signAt_eq_parity (N k z x : ℕ) (hN : N = 2 ^ k) (hz : z < N)
    (hx : x < N) : signAt N z x = (-1 : ℚ) ^ (x + z) := by
  unfold signAt signFlips
  rw [runningSign_eq]
  rcases k with _ | j
  · norm_num at hN
    subst hN
    have hz0 : z = 0 := by omega
    have hx0 : x = 0 := by omega
    subst hz0
    subst hx0
    norm_num
  · have hEven : Even N := by
      rw [hN, pow_succ]
      exact ⟨2 ^ j, by ring⟩
    have harith : z * N + x + z = N * z + (x + z) := by ring
    rw [harith, pow_add, pow_mul, hEven.neg_one_pow, one_pow, one_mul]

/-- C7 witness: on a 4 by 4 grid the running sign at cell (z, x) = (3, 2) is
(-1)^(2+3). -/
theorem signAt_eq_parity_witness : signAt 4 3 2 = (-1 : ℚ) ^ (2 + 3) :=
  signAt_eq_parity 4 2 3 2 (by norm_num) (by norm_num) (by norm_num)

/-- C8: for any math library whose square root is 0 at 0, any amplitude,
gravity and wind, and any pair of Gaussian variates, the Phillips spectral
density is 0 whenever the computed wavevector magnitude is below EPSILON, it
is 0 at the zero wavevector, and the spectral seed at the zero wavevector is
the zero complex value. -/
theorem HTilde0_zero_wavevector (ops : FloatOps) (m_Amplitude m_Gravity : ℚ)
    (m_Wind : ℚ × ℚ) (q0 q1 : ℚ) (hsq : ops.sqrtF 0 = 0) :
    (∀ kv : ℚ × ℚ, ops.sqrtF (kv.1 * kv.1 + kv.2 * kv.2) < EPSILON →
      PhillipsSpectrum ops m_Amplitude m_Gravity m_Wind kv = 0)
  ∧ HTilde0 ops m_Amplitude m_Gravity m_Wind q0 q1 (0, 0) = ⟨0, 0⟩ := by
  have hgen : ∀ kv : ℚ × ℚ, ops.sqrtF (kv.1 * kv.1 + kv.2 * kv.2) < EPSILON →
      PhillipsSpectrum ops m_Amplitude m_Gravity m_Wind kv = 0 := by
    intro kv hkv
    unfold PhillipsSpectrum
    rw [if_pos hkv]
  refine ⟨hgen, ?_⟩
  have hP : PhillipsSpectrum ops m_Amplitude m_Gravity m_Wind (0, 0) = 0 := by
    apply hgen
    simp only []
    norm_num [hsq, EPSILON]
  unfold HTilde0
  rw [hP]
  norm_num [hsq, Complex.mulF]

/-- C8 witness: with concrete parameters (wind (64, 64), the constructor
amplitude and gravity) and Gaussian variates (3, 5), the seed at the zero
wavevector is the zero complex value. -/
theorem HTilde0_zero_wavevector_witness :
    (∀ kv : ℚ × ℚ, demoOps.sqrtF (kv.1 * kv.1 + kv.2 * kv.2) < EPSILON →
      PhillipsSpectrum demoOps (1 / 20000) (981 / 100) (64, 64) kv = 0)
  ∧ HTilde0 demoOps (1 / 20000) (981 / 100) (64, 64) 3 5 (0, 0) = ⟨0, 0⟩ :=
  HTilde0_zero_wavevector demoOps (1 / 20000) (981 / 100) (64, 64) 3 5 rfl

end Water
